import Mathlib

/-!
Verification of the flashcard-generation service (Go sources under
`internal/service/flashcard_service.go`, `internal/handler/a2a_handler.go`,
`internal/models/`).  Go strings are modelled as `List Char`; the Go
standard-library string helpers used by the code (`strings.TrimSpace`,
`strings.Split`, `strings.Fields`, `strings.HasPrefix`, `strings.TrimPrefix`,
`strings.TrimRight`, `strings.Contains`, `strings.ToLower`) are embedded as
executable list functions below.  Whitespace is modelled by the ASCII/Latin-1
portion of Go's `unicode.IsSpace` (tab, newline, vertical tab, form feed,
carriage return, space, NEL, NBSP); wider Unicode space code points play no
role in any claim.
-/

/-- Go strings, modelled as lists of characters. -/
abbrev Str := List Char

/-- Coerce a Lean string literal into the `Str` model. -/
def str (s : String) : Str := s.data

/-- The characters Go's `unicode.IsSpace` accepts, restricted to Latin-1. -/
def isSpace (c : Char) : Bool :=
  c = ' ' || c = '\t' || c = '\n' || c = Char.ofNat 11 || c = Char.ofNat 12 ||
  c = '\r' || c = Char.ofNat 133 || c = Char.ofNat 160

/-- Drop leading whitespace (the left half of `strings.TrimSpace`). -/
def trimLeft (s : Str) : Str := s.dropWhile isSpace

/-- Drop trailing whitespace (the right half of `strings.TrimSpace`). -/
def trimRight (s : Str) : Str := (s.reverse.dropWhile isSpace).reverse

/-- Model of Go `strings.TrimSpace`. -/
def trimSpace (s : Str) : Str := trimRight (trimLeft s)

/-- Model of Go `strings.HasPrefix p s` (argument order: pattern first). -/
def startsWith : Str → Str → Bool
  | [], _ => true
  | _ :: _, [] => false
  | p :: ps, c :: cs => p = c && startsWith ps cs

/-- Model of Go `strings.TrimPrefix s p`: remove `p` from the front of `s`
when it is a prefix, otherwise return `s` unchanged. -/
def dropPre (p s : Str) : Str := if startsWith p s then s.drop p.length else s

/-- Model of Go `strings.TrimRight s cutset`: strip trailing characters that
belong to `cutset`. -/
def trimRightAny (cutset s : Str) : Str :=
  (s.reverse.dropWhile (fun c => cutset.contains c)).reverse

/-- ASCII lower-casing of one character (the fragment of `strings.ToLower`
relevant to the `.pdf` check). -/
def lowerChar (c : Char) : Char :=
  if 'A' ≤ c && c ≤ 'Z' then Char.ofNat (c.toNat + 32) else c

/-- Model of Go `strings.ToLower`. -/
def lowerStr (s : Str) : Str := s.map lowerChar

/-- Model of Go `strings.Contains s pat` (argument order: pattern first). -/
def containsSub (pat : Str) : Str → Bool
  | [] => pat.isEmpty
  | c :: rest => startsWith pat (c :: rest) || containsSub pat rest

/-- Prepend a character onto the first chunk of a chunk list (helper shared
by the splitting functions). -/
def consHead (c : Char) : List Str → List Str
  | [] => [[c]]
  | b :: bs => (c :: b) :: bs

/-- Split at every whitespace character (keeping empty chunks); helper for
`fields`. -/
def splitWS : Str → List Str
  | [] => [[]]
  | c :: rest => if isSpace c then [] :: splitWS rest else consHead c (splitWS rest)

/-- Model of Go `strings.Fields`: maximal runs of non-whitespace characters. -/
def fields (s : Str) : List Str := (splitWS s).filter (fun w => !w.isEmpty)

/-- Model of Go `strings.Split s "\n\n"`: split on each non-overlapping
leftmost occurrence of two consecutive newlines. -/
def splitOnNN : Str → List Str
  | [] => [[]]
  | [c] => [[c]]
  | c :: d :: rest =>
    if c = '\n' && d = '\n' then [] :: splitOnNN rest
    else consHead c (splitOnNN (d :: rest))

/-- Model of Go `strings.Split s "\n"`. -/
def splitLines : Str → List Str
  | [] => [[]]
  | c :: rest => if c = '\n' then [] :: splitLines rest else consHead c (splitLines rest)

/-- Decimal digits of a natural number, accumulator form with a structural
fuel argument (models the `%d` verb of `fmt.Sprintf`; any fuel at least the
number of digits gives the full decimal form). -/
def natStrGo : Nat → Nat → Str → Str
  | 0, n, acc => Nat.digitChar (n % 10) :: acc
  | fuel + 1, n, acc =>
    if n < 10 then Nat.digitChar (n % 10) :: acc
    else natStrGo fuel (n / 10) (Nat.digitChar (n % 10) :: acc)

/-- Decimal rendering of a natural number. -/
def natStr (n : Nat) : Str := natStrGo n n []

/-- Flashcard record (`internal/models/flashcard.go`). -/
structure Flashcard where
  question : Str
  answer : Str
  topic : Str
deriving DecidableEq, Repr

/-- FlashcardSet record (`internal/models/flashcard.go`). -/
structure FlashcardSet where
  title : Str
  flashcards : List Flashcard
  source : Str
  createdAt : Str
  totalCards : Nat
deriving DecidableEq, Repr

/-- The `Q:` marker. -/
def qTag : Str := str (r"Q:")

/-- The `A:` marker. -/
def aTag : Str := str (r"A:")

/-- The `T:` marker. -/
def tTag : Str := str (r"T:")

/-- The default topic string. -/
def conceptV : Str := str (r"Concept")

/-- One iteration of the per-line loop inside `generateFlashcards`
(`flashcard_service.go` lines 142-151): trim the line, then an
else-if chain on the `Q:`/`A:`/`T:` markers updating the
question/answer/topic state. -/
def lineStep (st : Str × Str × Str) (l : Str) : Str × Str × Str :=
  let t := trimSpace l
  if startsWith qTag t then (trimSpace (dropPre qTag t), st.2.1, st.2.2)
  else if startsWith aTag t then (st.1, trimSpace (dropPre aTag t), st.2.2)
  else if startsWith tTag t then (st.1, st.2.1, trimSpace (dropPre tTag t))
  else st

/-- One iteration of the per-block loop inside `generateFlashcards`
(`flashcard_service.go` lines 134-163): skip a block lacking `Q:` or `A:`,
run the line loop, and append a card when question and answer are
non-empty, defaulting the topic. -/
def blockStep (acc : List Flashcard) (block : Str) : List Flashcard :=
  if containsSub qTag block && containsSub aTag block then
    let st := (splitLines block).foldl lineStep ([], [], [])
    if st.1 ≠ [] ∧ st.2.1 ≠ [] then
      acc ++ [⟨st.1, st.2.1, if st.2.2 = [] then conceptV else st.2.2⟩]
    else acc
  else acc

/-- The flashcard parsing loop of `generateFlashcards`
(`flashcard_service.go` lines 130-163), as a function of the raw
model-response text. -/
def parseFlashcards (s : Str) : List Flashcard :=
  (splitOnNN s).foldl blockStep []

/-- Last-write-wins extraction of one field from the lines of a block, as the
spec describes it: each line is trimmed, and a line carrying the marker
overwrites the current value of that field. -/
def updField (p : Str) (lines : List Str) (x : Str) : Str :=
  lines.foldl
    (fun acc l =>
      let t := trimSpace l
      if startsWith p t then trimSpace (dropPre p t) else acc)
    x

/-- The flashcard a surviving block yields according to the spec wording:
question, answer and topic are extracted independently (last write wins,
starting from empty); a card appears only when question and answer are
non-empty, topic defaulting to `Concept`. -/
def blockCard (block : Str) : Option Flashcard :=
  let lines := splitLines block
  let q := updField qTag lines []
  let a := updField aTag lines []
  let t := updField tTag lines []
  if q ≠ [] ∧ a ≠ [] then some ⟨q, a, if t = [] then conceptV else t⟩ else none

/-- The parsing algorithm exactly as the spec words it: split on two
consecutive newlines, discard blocks lacking `Q:` or `A:`, turn each
surviving block into at most one card, preserving block order. -/
def parseFlashcardsSpec (s : Str) : List Flashcard :=
  ((splitOnNN s).filter
      (fun b => containsSub qTag b && containsSub aTag b)).filterMap blockCard

/-- Title derivation (`flashcard_service.go` lines 183-188). -/
def generateTitle (source : Str) : Str :=
  if startsWith (str (r"http")) source then str (r"Flashcards from PDF")
  else str (r"Study Flashcards")

/-- PDF-URL detection (`flashcard_service.go` lines 216-225): scan
whitespace-delimited tokens, strip trailing `.`, `,`, `;`, return the first
cleaned token that starts with `http` and contains `.pdf` case-insensitively. -/
def extractPDFURLWords : List Str → Str
  | [] => []
  | w :: ws =>
    let cleaned := trimRightAny (str (r".,;")) w
    if startsWith (str (r"http")) cleaned &&
        containsSub (str (r".pdf")) (lowerStr cleaned) then cleaned
    else extractPDFURLWords ws

/-- Model of `ExtractPDFURL` (`flashcard_service.go` lines 216-225). -/
def ExtractPDFURL (text : Str) : Str := extractPDFURLWords (fields text)

/-- The same scan as the spec words it: clean every token, keep the matching
ones, return the first (or empty). -/
def extractPDFURLSpec (text : Str) : Str :=
  ((((fields text).map (fun w => trimRightAny (str (r".,;")) w)).filter
      (fun c => startsWith (str (r"http")) c &&
        containsSub (str (r".pdf")) (lowerStr c))).head?).getD []

/-- Error codes (`internal/models/jsonrpc.go`). -/
def ParseErrorCode : Int := -32700

/-- JSON-RPC invalid-request code. -/
def InvalidRequestCode : Int := -32600

/-- JSON-RPC method-not-found code. -/
def MethodNotFoundCode : Int := -32601

/-- JSON-RPC invalid-params code. -/
def InvalidParamsCode : Int := -32602

/-- JSON-RPC internal-error code. -/
def InternalErrorCode : Int := -32603

/-- Typed application error (`pkg/errors`, as constructed by `NewAppError`
at every call site: a code and a human-readable message; the wrapped cause
only feeds the diagnostic string and is not needed by any claim). -/
structure AppError where
  code : Int
  message : Str
deriving DecidableEq, Repr

/-- Outcome of one call to the generation collaborator
(`model.GenerateContent`): transport failure, a response with no
candidates/parts, or a response text. -/
inductive GenOutcome where
  | failure
  | empty
  | text (s : Str)
deriving DecidableEq, Repr

/-- Text of the prompt template before the `%s` verb
(`flashcard_service.go` lines 93-108). -/
def promptHead : Str :=
  str (r"Create a set of 5-10 high-quality flashcards from the following text. 
Each flashcard should:
- Have a clear, specific question
- Include a concise but comprehensive answer
- Be categorized with an appropriate topic
- Cover key concepts, definitions, and applications

Text to process:
")

/-- Text of the prompt template after the `%s` verb. -/
def promptTail : Str :=
  str (r"

Format each flashcard as:
Q: [Question]
A: [Answer]
T: [Topic]

")

/-- The prompt handed to the generation collaborator. -/
def promptFor (text : Str) : Str := promptHead ++ text ++ promptTail

/-- Model of `generateFlashcards` (`flashcard_service.go` lines 82-181).
The generation collaborator is passed in as the function `gen`; `now` stands
for the RFC3339 rendering of `time.Now().UTC()`. -/
def generateFlashcards (gen : Str → GenOutcome) (now text source : Str) :
    Except AppError FlashcardSet :=
  if (trimSpace text).length = 0 then
    .error ⟨InvalidParamsCode, str (r"no content to generate flashcards from")⟩
  else
    match gen (promptFor text) with
    | .failure => .error ⟨InternalErrorCode, str (r"failed to generate flashcards")⟩
    | .empty => .error ⟨InternalErrorCode, str (r"no response generated from AI model")⟩
    | .text responseText =>
      let flashcards := parseFlashcards responseText
      if flashcards = [] then
        .error ⟨InternalErrorCode,
          str (r"could not generate meaningful flashcards from the content")⟩
      else
        .ok ⟨generateTitle source, flashcards, source, now, flashcards.length⟩

/-- Model of `GenerateFromText` (`flashcard_service.go` lines 78-80). -/
def GenerateFromText (gen : Str → GenOutcome) (now text : Str) :
    Except AppError FlashcardSet :=
  generateFlashcards gen now text (str (r"user_input"))

/-- Model of `GenerateFromURL` (`flashcard_service.go` lines 40-60); the
download/validate/extract pipeline is the collaborator `pdfFromURL`,
returning extracted text or a typed error. -/
def GenerateFromURL (gen : Str → GenOutcome) (pdfFromURL : Str → Except AppError Str)
    (now url : Str) : Except AppError FlashcardSet :=
  match pdfFromURL url with
  | .error e => .error e
  | .ok text => generateFlashcards gen now text url

/-- Model of `GenerateFromPDFData` (`flashcard_service.go` lines 62-76); the
validate/extract pipeline is the collaborator `pdfFromData`. -/
def GenerateFromPDFData (gen : Str → GenOutcome)
    (pdfFromData : Str → Except AppError Str) (now : Str) (pdfData : Str) :
    Except AppError FlashcardSet :=
  match pdfFromData pdfData with
  | .error e => .error e
  | .ok text => generateFlashcards gen now text (str (r"uploaded_pdf"))

/-- The chunk `FormatAsText` writes for the card numbered `n` (1-indexed):
the card label with optional topic, the question line, the answer line and a
blank separator line (`flashcard_service.go` lines 203-211). -/
def cardChunk (n : Nat) (c : Flashcard) : Str :=
  str (r"**Card ") ++ natStr n ++ str (r"**") ++
    (if c.topic ≠ [] then str (r" (") ++ c.topic ++ str (r")") else []) ++
    '\n' :: (str (r"Q: ") ++ c.question ++
      '\n' :: (str (r"A: ") ++ c.answer ++ '\n' :: '\n' :: []))

/-- The card loop of `FormatAsText`, numbering from `n`. -/
def formatCards (n : Nat) : List Flashcard → Str
  | [] => []
  | c :: cs => cardChunk n c ++ formatCards (n + 1) cs

/-- Model of `FormatAsText` (`flashcard_service.go` lines 197-214). -/
def FormatAsText (set : FlashcardSet) : Str :=
  str (r"# ") ++ set.title ++ '\n' :: '\n' ::
    (str (r"Generated ") ++ natStr set.totalCards ++
      str (r" flashcards from: ") ++ set.source ++ '\n' :: '\n' ::
        formatCards 1 set.flashcards)

/-- Dynamic payload of a message part's `data` field (the
`interface{}` values the handler's type assertions in `extractPDFData`
distinguish): nothing, a flashcard set, a JSON object with its fields
relevant to the handler, a raw byte payload, or anything else. -/
inductive DataPayload where
  | null
  | flashSet (s : FlashcardSet)
  | obj (contentType : Option Str) (dataStr : Option Str) (pdfBytes : Option Str)
  | bytes (b : Str)
  | other
deriving DecidableEq, Repr

/-- Message part (`internal/models/`, `MessagePart`). -/
structure MessagePart where
  kind : Str
  text : Str
  data : DataPayload
deriving DecidableEq, Repr

/-- Message (`internal/models/`, `Message`). -/
structure Message where
  kind : Str
  role : Str
  parts : List MessagePart
  messageId : Str
  taskId : Str
deriving DecidableEq, Repr

/-- Artifact (`internal/models/`). -/
structure Artifact where
  artifactId : Str
  name : Str
  parts : List MessagePart
deriving DecidableEq, Repr

/-- Task status (`internal/models/`). -/
structure Status where
  state : Str
  timestamp : Str
  message : Message
deriving DecidableEq, Repr

/-- Task result (`internal/models/`). -/
structure TaskResult where
  id : Str
  contextId : Str
  status : Status
  artifacts : List Artifact
  history : List Message
  kind : Str
deriving DecidableEq, Repr

/-- How the `params` map of a request relates to the expected
`{"message": <object>}` shape: the `message` key is absent or not an object
(the type assertion in `extractMessage` fails), it is an object that does
not unmarshal into `Message`, or it carries a message. -/
inductive ParamsShape where
  | noObj
  | badFormat
  | msg (m : Message)
deriving DecidableEq, Repr

/-- JSON-RPC request (`internal/models/jsonrpc.go`). -/
structure JSONRPCRequest where
  jsonrpc : Str
  id : Str
  method : Str
  params : ParamsShape
deriving DecidableEq, Repr

/-- JSON-RPC error object (`internal/models/jsonrpc.go`). -/
structure RPCError where
  code : Int
  message : Str
  data : Str
deriving DecidableEq, Repr

/-- JSON-RPC response (`internal/models/jsonrpc.go`). -/
structure JSONRPCResponse where
  jsonrpc : Str
  id : Str
  result : Option TaskResult
  error : Option RPCError
deriving DecidableEq, Repr

/-- An incoming HTTP request as the handler observes it: the verb, and the
result of JSON-decoding the body (`none` models a decode failure). -/
structure HTTPRequest where
  method : Str
  body : Option JSONRPCRequest
deriving DecidableEq, Repr

/-- The written HTTP response: status code and JSON-RPC body. -/
structure HTTPResponse where
  status : Nat
  body : JSONRPCResponse
deriving DecidableEq, Repr

/-- The collaborators and per-request nondeterminism of the handler: the
generation engine, the two PDF text-extraction pipelines, the fresh
identifier fragments drawn from `uuid.New()` (already cut to the length the
code slices), and the current RFC3339 timestamp. -/
structure Collab where
  gen : Str → GenOutcome
  pdfFromURL : Str → Except AppError Str
  pdfFromData : Str → Except AppError Str
  freshTask : Str
  freshMsg : Str
  freshArtifact : Str
  freshCtx : Str
  now : Str

/-- Model of `sendError` (`a2a_handler.go` lines 230-241): always writes
status 200 with an error envelope. -/
def sendError (id : Str) (code : Int) (message data : Str) : HTTPResponse :=
  ⟨200, ⟨str (r"2.0"), id, none, some ⟨code, message, data⟩⟩⟩

/-- Model of `sendSuccess` (`a2a_handler.go` lines 221-228): always writes
status 200 with a result envelope. -/
def sendSuccess (id : Str) (result : TaskResult) : HTTPResponse :=
  ⟨200, ⟨str (r"2.0"), id, some result, none⟩⟩

/-- Model of `extractMessage` (`a2a_handler.go` lines 81-102). -/
def extractMessage (params : ParamsShape) : Except AppError Message :=
  match params with
  | .noObj => .error ⟨InvalidParamsCode, str (r"Missing or invalid 'message' parameter")⟩
  | .badFormat => .error ⟨InvalidParamsCode, str (r"Invalid message format")⟩
  | .msg m => .ok m

/-- Model of `extractUserInput` (`a2a_handler.go` lines 104-111): the text
of the first `text`-kind part, else empty. -/
def extractUserInput : List MessagePart → Str
  | [] => []
  | p :: rest => if p.kind = str (r"text") then p.text else extractUserInput rest

/-- One loop iteration of `extractPDFData` (`a2a_handler.go` lines 142-166):
what a single part contributes, `none` meaning the loop moves on. -/
def partPDFData (p : MessagePart) : Option Str :=
  if p.kind = str (r"data") then
    match p.data with
    | .obj contentType dataStr pdfBytes =>
      if contentType = some (str (r"application/pdf")) then
        match dataStr with
        | some s => some s
        | none => match pdfBytes with
          | some b => some b
          | none => none
      else
        match pdfBytes with
        | some b => some b
        | none => none
    | .bytes b => some b
    | _ => none
  else none

/-- Model of `extractPDFData` (`a2a_handler.go` lines 141-169): first part
that yields PDF bytes, scanning in order.  The `[]byte(base64Data)`
conversion is the identity on the string's bytes — the code deliberately
does not base64-decode. -/
def extractPDFData : List MessagePart → Option Str
  | [] => none
  | p :: rest =>
    match partPDFData p with
    | some b => some b
    | none => extractPDFData rest

/-- Model of `buildTaskResult` (`a2a_handler.go` lines 171-219). -/
def buildTaskResult (c : Collab) (flashcards : FlashcardSet) (userMsg : Message) :
    TaskResult :=
  let taskID := if userMsg.taskId = [] then str (r"task-") ++ c.freshTask
    else userMsg.taskId
  let responseMsg : Message :=
    ⟨str (r"message"), str (r"agent"),
      [⟨str (r"text"), FormatAsText flashcards, .null⟩],
      str (r"msg-") ++ c.freshMsg, []⟩
  { id := taskID
    contextId := str (r"ctx-") ++ c.freshCtx
    status := ⟨str (r"completed"), c.now, responseMsg⟩
    artifacts := [⟨str (r"artifact-") ++ c.freshArtifact, str (r"flashcardSet"),
      [⟨str (r"data"), [], .flashSet flashcards⟩]⟩]
    history := [userMsg, responseMsg]
    kind := str (r"task") }

/-- Model of `processRequest` (`a2a_handler.go` lines 113-139). -/
def processRequest (c : Collab) (input : Str) (userMsg : Message) :
    Except AppError TaskResult :=
  let outcome :=
    if ExtractPDFURL input ≠ [] then
      GenerateFromURL c.gen c.pdfFromURL c.now (ExtractPDFURL input)
    else
      match extractPDFData userMsg.parts with
      | some pdfData => GenerateFromPDFData c.gen c.pdfFromData c.now pdfData
      | none => GenerateFromText c.gen c.now input
  match outcome with
  | .error e => .error e
  | .ok flashcards => .ok (buildTaskResult c flashcards userMsg)

/-- Model of `handleMessageSend` (`a2a_handler.go` lines 54-79).  The
`data` string of an error response forwards the `AppError`'s message where
the code forwards `appErr.Error()`; no claim depends on that rendering. -/
def handleMessageSend (c : Collab) (req : JSONRPCRequest) : HTTPResponse :=
  match extractMessage req.params with
  | .error e => sendError req.id e.code e.message e.message
  | .ok msg =>
    let userInput := extractUserInput msg.parts
    if userInput = [] then
      sendError req.id InvalidParamsCode (str (r"Invalid params"))
        (str (r"No text content found in message"))
    else
      match processRequest c userInput msg with
      | .error e => sendError req.id e.code e.message e.message
      | .ok result => sendSuccess req.id result

/-- Model of `ServeHTTP` (`a2a_handler.go` lines 29-52).  The diagnostic
data of the parse-error response (the JSON decoder's error text) is
modelled as empty; no claim depends on that string. -/
def serveHTTP (c : Collab) (r : HTTPRequest) : HTTPResponse :=
  if r.method ≠ str (r"POST") then
    sendError (str (r"unknown")) InvalidRequestCode
      (str (r"Only POST method is supported")) []
  else
    match r.body with
    | none => sendError [] ParseErrorCode (str (r"Parse error")) []
    | some req =>
      if req.jsonrpc ≠ str (r"2.0") then
        sendError req.id InvalidRequestCode (str (r"Invalid Request"))
          (str (r"jsonrpc must be 2.0"))
      else if req.method = str (r"message/send") then
        handleMessageSend c req
      else
        sendError req.id MethodNotFoundCode (str (r"Method not found"))
          (str (r"Method ") ++ req.method ++ str (r" not supported"))

/-! Basic facts about the embedded Go string helpers. -/

theorem startsWith_nil_pat (s : Str) : startsWith [] s = true := by
  cases s <;> rfl

theorem startsWith_head_eq {p : Char} {ps s : Str} (h : startsWith (p :: ps) s = true) :
    ∃ cs, s = p :: cs ∧ startsWith ps cs = true := by
  cases s with
  | nil => simp [startsWith] at h
  | cons c cs =>
    simp only [startsWith, Bool.and_eq_true, decide_eq_true_eq] at h
    exact ⟨cs, by rw [h.1], h.2⟩

theorem startsWith_cons_false {a c : Char} (h : a ≠ c) (ps cs : Str) :
    startsWith (a :: ps) (c :: cs) = false := by
  simp [startsWith, h]

theorem startsWith_tag_mutex {t : Str} {p : Char} {ps : Str}
    (hp : startsWith (p :: ps) t = true) {q : Char} (qs : Str) (hne : q ≠ p) :
    startsWith (q :: qs) t = false := by
  obtain ⟨cs, rfl, -⟩ := startsWith_head_eq hp
  exact startsWith_cons_false hne qs cs

theorem containsSub_cons (pat : Str) (c : Char) (rest : Str) :
    containsSub pat (c :: rest) = (startsWith pat (c :: rest) || containsSub pat rest) :=
  rfl

theorem containsSub_of_startsWith {pat s : Str} (h : startsWith pat s = true) :
    containsSub pat s = true := by
  cases s with
  | nil =>
    cases pat with
    | nil => rfl
    | cons p ps => simp [startsWith] at h
  | cons c cs => simp [containsSub_cons, h]

theorem containsSub_append_right {pat : Str} (x : Str) {y : Str}
    (h : containsSub pat y = true) : containsSub pat (x ++ y) = true := by
  induction x with
  | nil => simpa using h
  | cons c x ih => simp [containsSub_cons, ih]

theorem trimLeft_cons_not_space {c : Char} (h : isSpace c = false) (s : Str) :
    trimLeft (c :: s) = c :: s := by
  simp [trimLeft, List.dropWhile_cons, h]

theorem trimLeft_cons_space {c : Char} (h : isSpace c = true) (s : Str) :
    trimLeft (c :: s) = trimLeft s := by
  simp [trimLeft, List.dropWhile_cons, h]

theorem trimRight_cons_of_ne {s : Str} (h : trimRight s ≠ []) (c : Char) :
    trimRight (c :: s) = c :: trimRight s := by
  have hne : (List.dropWhile isSpace s.reverse).isEmpty = false := by
    cases hd : List.dropWhile isSpace s.reverse with
    | nil => exact absurd (by simp [trimRight, hd]) h
    | cons a as => rfl
  simp [trimRight, List.dropWhile_append, hne]

theorem trimRight_cons_not_space {c : Char} (h : isSpace c = false) (s : Str) :
    trimRight (c :: s) = c :: trimRight s := by
  by_cases hs : trimRight s = []
  · have hall : List.dropWhile isSpace s.reverse = [] := by
      have := congrArg List.reverse hs
      simpa [trimRight] using this
    simp [trimRight, List.dropWhile_append, hall, List.dropWhile_cons, h, hs]
  · exact trimRight_cons_of_ne hs c

theorem trimSpace_cons_not_space {c : Char} (h : isSpace c = false) (s : Str) :
    trimSpace (c :: s) = c :: trimRight s := by
  rw [trimSpace, trimLeft_cons_not_space h, trimRight_cons_not_space h]

theorem trimRight_length_le (s : Str) : (trimRight s).length ≤ s.length := by
  have := (List.dropWhile_suffix (l := s.reverse) isSpace).length_le
  simpa [trimRight] using this

theorem trimLeft_eq_self_of_trimSpace {q : Str} (h : trimSpace q = q) :
    trimLeft q = q := by
  have hlen : (trimLeft q).length = q.length := by
    have h1 : (trimLeft q).length ≤ q.length := (List.dropWhile_suffix isSpace).length_le
    have h2 : (trimSpace q).length ≤ (trimLeft q).length := trimRight_length_le _
    rw [h] at h2
    omega
  exact (List.dropWhile_suffix isSpace).eq_of_length hlen

theorem trimRight_eq_self_of_trimSpace {q : Str} (h : trimSpace q = q) :
    trimRight q = q := by
  have hL := trimLeft_eq_self_of_trimSpace h
  rw [trimSpace, hL] at h
  exact h

theorem trimSpace_space_cons (q : Str) : trimSpace (' ' :: q) = trimSpace q := by
  rw [trimSpace, trimLeft_cons_space (by decide), trimSpace]


/-- Prepend a string onto the first chunk of a chunk list. -/
def prependFirst (l : Str) : List Str → List Str
  | [] => [l]
  | b :: bs => (l ++ b) :: bs

theorem consHead_prependFirst (c : Char) (l : Str) (X : List Str) :
    consHead c (prependFirst l X) = prependFirst (c :: l) X := by
  cases X <;> rfl

theorem splitOnNN_ne_nil (s : Str) : splitOnNN s ≠ [] := by
  match s with
  | [] => simp [splitOnNN]
  | [c] => simp [splitOnNN]
  | c :: d :: rest =>
    rw [splitOnNN]
    split
    · exact List.cons_ne_nil _ _
    · cases h : splitOnNN (d :: rest) <;> simp [consHead]

theorem splitOnNN_cons_notNL {c : Char} (h : ¬(c = '\n')) (s : Str) :
    splitOnNN (c :: s) = consHead c (splitOnNN s) := by
  cases s with
  | nil => simp [splitOnNN, consHead]
  | cons d r =>
    rw [splitOnNN]
    rw [if_neg (by simp [h])]

theorem splitOnNN_nn (s : Str) : splitOnNN ('\n' :: '\n' :: s) = [] :: splitOnNN s := by
  rw [splitOnNN]
  simp

theorem splitOnNN_n_cons {c : Char} (h : ¬(c = '\n')) (s : Str) :
    splitOnNN ('\n' :: c :: s) = consHead '\n' (splitOnNN (c :: s)) := by
  rw [splitOnNN]
  rw [if_neg (by simp [h])]

theorem splitOnNN_append {l : Str} (h : '\n' ∉ l) (s : Str) :
    splitOnNN (l ++ s) = prependFirst l (splitOnNN s) := by
  induction l with
  | nil =>
    cases hx : splitOnNN s with
    | nil => exact absurd hx (splitOnNN_ne_nil s)
    | cons b bs => simp [prependFirst, hx]
  | cons c l ih =>
    have hc : ¬(c = '\n') := fun he => h (by simp [he])
    have h' : '\n' ∉ l := fun hm => h (by simp [hm])
    show splitOnNN (c :: (l ++ s)) = prependFirst (c :: l) (splitOnNN s)
    rw [splitOnNN_cons_notNL hc, ih h', consHead_prependFirst]

theorem splitOnNN_line {l : Str} (h : '\n' ∉ l) (r : Str) :
    splitOnNN (l ++ '\n' :: '\n' :: r) = l :: splitOnNN r := by
  rw [splitOnNN_append h, splitOnNN_nn]
  simp [prependFirst]

theorem splitOnNN_block {l1 l2 l3 : Str} (h1 : '\n' ∉ l1) (h2 : '\n' ∉ l2)
    (h3 : '\n' ∉ l3) (n2 : l2 ≠ []) (n3 : l3 ≠ []) (r : Str) :
    splitOnNN (l1 ++ '\n' :: (l2 ++ '\n' :: (l3 ++ '\n' :: '\n' :: r))) =
      (l1 ++ '\n' :: (l2 ++ '\n' :: l3)) :: splitOnNN r := by
  cases l3 with
  | nil => exact absurd rfl n3
  | cons e l3' =>
  cases l2 with
  | nil => exact absurd rfl n2
  | cons f l2' =>
  have he : ¬(e = '\n') := fun hh => h3 (by simp [hh])
  have hf : ¬(f = '\n') := fun hh => h2 (by simp [hh])
  have s3 : splitOnNN ((e :: l3') ++ '\n' :: '\n' :: r) = (e :: l3') :: splitOnNN r :=
    splitOnNN_line h3 r
  have s3' : splitOnNN ('\n' :: ((e :: l3') ++ '\n' :: '\n' :: r)) =
      ('\n' :: e :: l3') :: splitOnNN r := by
    rw [List.cons_append, splitOnNN_n_cons he, ← List.cons_append, s3]
    rfl
  have s2 : splitOnNN ((f :: l2') ++ '\n' :: ((e :: l3') ++ '\n' :: '\n' :: r)) =
      ((f :: l2') ++ '\n' :: e :: l3') :: splitOnNN r := by
    rw [splitOnNN_append h2, s3']
    rfl
  have s2' : splitOnNN ('\n' :: ((f :: l2') ++ '\n' :: ((e :: l3') ++ '\n' :: '\n' :: r))) =
      ('\n' :: ((f :: l2') ++ '\n' :: e :: l3')) :: splitOnNN r := by
    rw [List.cons_append, splitOnNN_n_cons hf, ← List.cons_append, s2]
    rfl
  rw [splitOnNN_append h1, s2']
  rfl

theorem splitLines_ne_nil (s : Str) : splitLines s ≠ [] := by
  match s with
  | [] => simp [splitLines]
  | c :: rest =>
    rw [splitLines]
    split
    · exact List.cons_ne_nil _ _
    · cases h : splitLines rest <;> simp [consHead]

theorem splitLines_cons_notNL {c : Char} (h : ¬(c = '\n')) (s : Str) :
    splitLines (c :: s) = consHead c (splitLines s) := by
  rw [splitLines]
  rw [if_neg h]

theorem splitLines_n (s : Str) : splitLines ('\n' :: s) = [] :: splitLines s := by
  rw [splitLines]
  simp

theorem splitLines_append {l : Str} (h : '\n' ∉ l) (s : Str) :
    splitLines (l ++ s) = prependFirst l (splitLines s) := by
  induction l with
  | nil =>
    cases hx : splitLines s with
    | nil => exact absurd hx (splitLines_ne_nil s)
    | cons b bs => simp [prependFirst, hx]
  | cons c l ih =>
    have hc : ¬(c = '\n') := fun he => h (by simp [he])
    have h' : '\n' ∉ l := fun hm => h (by simp [hm])
    show splitLines (c :: (l ++ s)) = prependFirst (c :: l) (splitLines s)
    rw [splitLines_cons_notNL hc, ih h', consHead_prependFirst]

theorem splitLines_noNL {l : Str} (h : '\n' ∉ l) : splitLines l = [l] := by
  have h0 := splitLines_append h []
  simpa [prependFirst, splitLines] using h0

theorem splitLines_block {l1 l2 l3 : Str} (h1 : '\n' ∉ l1) (h2 : '\n' ∉ l2)
    (h3 : '\n' ∉ l3) :
    splitLines (l1 ++ '\n' :: (l2 ++ '\n' :: l3)) = [l1, l2, l3] := by
  rw [splitLines_append h1, splitLines_n, splitLines_append h2, splitLines_n,
    splitLines_noNL h3]
  simp [prependFirst]

theorem natStrGo_mem {c : Char} (fuel n : Nat) (acc : Str)
    (h : c ∈ natStrGo fuel n acc) :
    c ∈ acc ∨ ∃ k, k < 10 ∧ c = Nat.digitChar k := by
  induction fuel generalizing n acc with
  | zero =>
    rcases List.mem_cons.mp h with h | h
    · exact Or.inr ⟨n % 10, Nat.mod_lt n (by omega), h⟩
    · exact Or.inl h
  | succ fuel ih =>
    rw [natStrGo] at h
    by_cases hn : n < 10
    · rw [if_pos hn] at h
      rcases List.mem_cons.mp h with h | h
      · exact Or.inr ⟨n % 10, Nat.mod_lt n (by omega), h⟩
      · exact Or.inl h
    · rw [if_neg hn] at h
      rcases ih _ _ h with h | h
      · rcases List.mem_cons.mp h with h | h
        · exact Or.inr ⟨n % 10, Nat.mod_lt n (by omega), h⟩
        · exact Or.inl h
      · exact Or.inr h

theorem nl_not_mem_natStr (n : Nat) : '\n' ∉ natStr n := by
  intro h
  rcases natStrGo_mem n n [] h with h | ⟨k, hk, he⟩
  · simp at h
  · have hd : ∀ k, k < 10 → Nat.digitChar k ≠ '\n' := by decide
    exact hd k hk he.symm

theorem updField_nil (p x : Str) : updField p [] x = x := rfl

theorem updField_cons (p : Str) (l : Str) (ls : List Str) (x : Str) :
    updField p (l :: ls) x =
      updField p ls
        (if startsWith p (trimSpace l) then trimSpace (dropPre p (trimSpace l)) else x) := by
  simp [updField, List.foldl_cons]

theorem lineStep_foldl (lines : List Str) (q0 a0 t0 : Str) :
    lines.foldl lineStep (q0, a0, t0) =
      (updField qTag lines q0, updField aTag lines a0, updField tTag lines t0) := by
  induction lines generalizing q0 a0 t0 with
  | nil => rfl
  | cons l ls ih =>
    rw [List.foldl_cons, updField_cons, updField_cons, updField_cons]
    by_cases hq : startsWith qTag (trimSpace l) = true
    · have ha : startsWith aTag (trimSpace l) = false := by
        rw [show qTag = 'Q' :: [':'] from rfl] at hq
        exact startsWith_tag_mutex hq [':'] (by decide)
      have ht : startsWith tTag (trimSpace l) = false := by
        rw [show qTag = 'Q' :: [':'] from rfl] at hq
        exact startsWith_tag_mutex hq [':'] (by decide)
      have hstep : lineStep (q0, a0, t0) l =
          (trimSpace (dropPre qTag (trimSpace l)), a0, t0) := by
        simp [lineStep, hq]
      rw [hstep, ih, if_pos hq, if_neg (by simp [ha]), if_neg (by simp [ht])]
    · by_cases ha : startsWith aTag (trimSpace l) = true
      · have ht : startsWith tTag (trimSpace l) = false := by
          rw [show aTag = 'A' :: [':'] from rfl] at ha
          exact startsWith_tag_mutex ha [':'] (by decide)
        have hstep : lineStep (q0, a0, t0) l =
            (q0, trimSpace (dropPre aTag (trimSpace l)), t0) := by
          simp [lineStep, hq, ha]
        rw [hstep, ih, if_neg (by simp [hq]), if_pos ha, if_neg (by simp [ht])]
      · by_cases ht : startsWith tTag (trimSpace l) = true
        · have hstep : lineStep (q0, a0, t0) l =
              (q0, a0, trimSpace (dropPre tTag (trimSpace l))) := by
            simp [lineStep, hq, ha, ht]
          rw [hstep, ih, if_neg (by simp [hq]), if_neg (by simp [ha]), if_pos ht]
        · have hstep : lineStep (q0, a0, t0) l = (q0, a0, t0) := by
            simp [lineStep, hq, ha, ht]
          rw [hstep, ih, if_neg (by simp [hq]), if_neg (by simp [ha]),
            if_neg (by simp [ht])]

/-- A surviving block's contribution, guard included: what the block loop
appends for one block. -/
def guardedCard (block : Str) : Option Flashcard :=
  if containsSub qTag block && containsSub aTag block then blockCard block else none

theorem blockStep_eq (acc : List Flashcard) (block : Str) :
    blockStep acc block = acc ++ (guardedCard block).toList := by
  unfold blockStep guardedCard blockCard
  rw [lineStep_foldl]
  by_cases hg : (containsSub qTag block && containsSub aTag block) = true
  · rw [if_pos hg, if_pos hg]
    by_cases hqa : updField qTag (splitLines block) [] ≠ [] ∧
        updField aTag (splitLines block) [] ≠ []
    · rw [if_pos hqa, if_pos hqa]
      rfl
    · rw [if_neg hqa, if_neg hqa]
      simp
  · rw [if_neg hg, if_neg hg]
    simp

theorem parse_foldl (bs : List Str) (acc : List Flashcard) :
    bs.foldl blockStep acc = acc ++ bs.filterMap guardedCard := by
  induction bs generalizing acc with
  | nil => simp
  | cons b bs ih =>
    rw [List.foldl_cons, blockStep_eq, ih, List.filterMap_cons]
    cases guardedCard b <;> simp

theorem parse_eq_filterMap (s : Str) :
    parseFlashcards s = (splitOnNN s).filterMap guardedCard := by
  have h0 := parse_foldl (splitOnNN s) []
  simpa [parseFlashcards] using h0

theorem filterMap_guard {α β : Type} (pred : α → Bool) (f : α → Option β)
    (bs : List α) :
    (bs.filter pred).filterMap f =
      bs.filterMap (fun b => if pred b then f b else none) := by
  induction bs with
  | nil => rfl
  | cons b bs ih =>
    by_cases hp : pred b = true
    · rw [List.filter_cons_of_pos hp, List.filterMap_cons, List.filterMap_cons]
      simp only [hp, if_true]
      cases f b <;> simp [ih]
    · rw [List.filter_cons_of_neg (by simp [hp]), List.filterMap_cons]
      simp only [hp]
      simpa using ih

/-- C1: for every raw model-response string, the parser of
`generateFlashcards` produces exactly the cards described by the spec's
algorithm: split on two consecutive newlines; discard blocks without both
`Q:` and `A:`; per block, trim lines and assign the trimmed remainder after
a `Q:`/`A:`/`T:` marker with last-write-wins; emit a card only when question
and answer are non-empty, topic defaulting to `Concept`; block order
preserved. -/
theorem claim_C1 : ∀ s : Str, parseFlashcards s = parseFlashcardsSpec s := by
  intro s
  rw [parse_eq_filterMap, parseFlashcardsSpec, filterMap_guard]
  rfl

theorem extractPDFURLWords_eq (ws : List Str) :
    extractPDFURLWords ws =
      ((((ws.map (fun w => trimRightAny (str (r".,;")) w)).filter
        (fun c => startsWith (str (r"http")) c &&
          containsSub (str (r".pdf")) (lowerStr c))).head?).getD []) := by
  induction ws with
  | nil => rfl
  | cons w ws ih =>
    rw [extractPDFURLWords]
    simp only [List.map_cons, List.filter_cons]
    by_cases h : (startsWith (str (r"http")) (trimRightAny (str (r".,;")) w) &&
        containsSub (str (r".pdf")) (lowerStr (trimRightAny (str (r".,;")) w))) = true
    · simp [h]
    · simp only [h, if_false, Bool.false_eq_true]
      simpa [h] using ih

/-- C3: `ExtractPDFURL` scans whitespace-delimited tokens in order, strips
trailing `.`, `,`, `;`, and returns the first stripped token starting with
`http` and containing `.pdf` case-insensitively (empty when none); on the
two-URL example it returns the first URL. -/
theorem claim_C3 :
    (∀ t : Str, ExtractPDFURL t = extractPDFURLSpec t) ∧
      ExtractPDFURL
        (str (r"See https://example.com/first.pdf and https://example.com/second.pdf")) =
        str (r"https://example.com/first.pdf") := by
  constructor
  · intro t
    rw [ExtractPDFURL, extractPDFURLSpec, extractPDFURLWords_eq]
  · decide

/-- C9: `generateTitle` maps every string starting with `http` to
`Flashcards from PDF` and every other string to `Study Flashcards`. -/
theorem claim_C9 : ∀ source : Str,
    generateTitle source =
      (if startsWith (str (r"http")) source then str (r"Flashcards from PDF")
        else str (r"Study Flashcards")) :=
  fun _ => rfl

/-- C4: on source text whose trimmed form is empty, `generateFlashcards`
fails with InvalidParams (-32602) and message
`no content to generate flashcards from`, for every generation collaborator
`gen` — the conclusion does not depend on `gen`, so the collaborator is
never consulted. -/
theorem claim_C4 : ∀ (gen : Str → GenOutcome) (now text source : Str),
    trimSpace text = [] →
    generateFlashcards gen now text source =
      .error ⟨InvalidParamsCode, str (r"no content to generate flashcards from")⟩ := by
  intro gen now text source h
  rw [generateFlashcards, if_pos (by simp [h])]

/-- Witness for C4 at the all-whitespace input. -/
theorem claim_C4_witness :
    trimSpace (str (r"   ")) = [] ∧
      generateFlashcards (fun _ => GenOutcome.failure) [] (str (r"   ")) [] =
        .error ⟨InvalidParamsCode, str (r"no content to generate flashcards from")⟩ :=
  ⟨by decide, claim_C4 (fun _ => GenOutcome.failure) [] (str (r"   ")) [] (by decide)⟩

theorem generateFlashcards_ok_inv {gen : Str → GenOutcome} {now text source : Str}
    {set : FlashcardSet} (h : generateFlashcards gen now text source = .ok set) :
    set.totalCards = set.flashcards.length ∧ set.flashcards ≠ [] := by
  rw [generateFlashcards] at h
  by_cases h0 : (trimSpace text).length = 0
  · rw [if_pos h0] at h
    exact absurd h (by simp)
  · rw [if_neg h0] at h
    cases hg : gen (promptFor text) with
    | failure => rw [hg] at h; exact absurd h (by simp)
    | empty => rw [hg] at h; exact absurd h (by simp)
    | text s =>
      rw [hg] at h
      simp only [] at h
      by_cases hp : parseFlashcards s = []
      · rw [if_pos hp] at h
        exact absurd h (by simp)
      · rw [if_neg hp] at h
        have he : (⟨generateTitle source, parseFlashcards s, source, now,
            (parseFlashcards s).length⟩ : FlashcardSet) = set := by
          exact Except.ok.inj h
        rw [← he]
        exact ⟨rfl, hp⟩

/-- C2: every `FlashcardSet` returned by `generateFlashcards` (hence by
`GenerateFromText`, `GenerateFromPDFData`, `GenerateFromURL`) has
`totalCards` equal to the number of flashcards and a non-empty flashcard
list; and when the model response parses to zero cards the call fails with
InternalError (-32603) and message
`could not generate meaningful flashcards from the content`. -/
theorem claim_C2 : ∀ (gen : Str → GenOutcome) (now text source : Str),
    (∀ set, generateFlashcards gen now text source = .ok set →
      set.totalCards = set.flashcards.length ∧ set.flashcards ≠ []) ∧
    (∀ s, trimSpace text ≠ [] → gen (promptFor text) = .text s →
      parseFlashcards s = [] →
      generateFlashcards gen now text source =
        .error ⟨InternalErrorCode,
          str (r"could not generate meaningful flashcards from the content")⟩) ∧
    (∀ set, GenerateFromText gen now text = .ok set →
      set.totalCards = set.flashcards.length ∧ set.flashcards ≠ []) ∧
    (∀ pdfFromURL url set, GenerateFromURL gen pdfFromURL now url = .ok set →
      set.totalCards = set.flashcards.length ∧ set.flashcards ≠ []) ∧
    (∀ pdfFromData pdfData set,
      GenerateFromPDFData gen pdfFromData now pdfData = .ok set →
      set.totalCards = set.flashcards.length ∧ set.flashcards ≠ []) := by
  intro gen now text source
  refine ⟨fun set h => generateFlashcards_ok_inv h, ?_, ?_, ?_, ?_⟩
  · intro s h0 hg hp
    rw [generateFlashcards, if_neg (by simp [h0]), hg]
    simp only []
    rw [if_pos hp]
  · intro set h
    exact generateFlashcards_ok_inv h
  · intro pdfFromURL url set h
    rw [GenerateFromURL] at h
    cases hu : pdfFromURL url with
    | error e => rw [hu] at h; exact absurd h (by simp)
    | ok t => rw [hu] at h; exact generateFlashcards_ok_inv h
  · intro pdfFromData pdfData set h
    rw [GenerateFromPDFData] at h
    cases hu : pdfFromData pdfData with
    | error e => rw [hu] at h; exact absurd h (by simp)
    | ok t => rw [hu] at h; exact generateFlashcards_ok_inv h

/-- Witness for C2: a response parsing to zero cards yields the
InternalError failure. -/
theorem claim_C2_witness :
    generateFlashcards (fun _ => GenOutcome.text (str (r"nope"))) [] (str (r"hi")) [] =
      .error ⟨InternalErrorCode,
        str (r"could not generate meaningful flashcards from the content")⟩ :=
  (claim_C2 (fun _ => GenOutcome.text (str (r"nope"))) [] (str (r"hi")) []).2.1
    (str (r"nope")) (by decide) rfl (by decide)

/-- A data part carrying raw bytes, placed before the PDF mapping part in
the counterexample message. -/
def c8part1 : MessagePart := ⟨str (r"data"), [], .bytes (str (r"raw"))⟩

/-- A data part whose payload is a mapping with contentType
`application/pdf` and a string `data` field. -/
def c8part2 : MessagePart :=
  ⟨str (r"data"), [],
    .obj (some (str (r"application/pdf"))) (some (str (r"AAAA"))) none⟩

/-- Counterexample to C8 as stated: a message that contains a
`application/pdf` mapping part, but whose extracted PDF bytes are those of
an earlier raw-bytes data part, not the raw bytes of the mapping's string. -/
theorem claim_C8_counterexample :
    extractPDFData [c8part1, c8part2] = some (str (r"raw")) ∧
      ¬ extractPDFData [c8part1, c8part2] = some (str (r"AAAA")) := by
  constructor
  · rfl
  · decide

/-- C8 (amended): when no earlier part yields PDF bytes, the bytes handed
to the PDF pipeline for a data part whose payload is a mapping with
contentType `application/pdf` and a string `data` field are the raw bytes
of that string itself — no base64 decoding. -/
theorem claim_C8 : ∀ (pre : List MessagePart) (p : MessagePart)
    (rest : List MessagePart) (s : Str) (pb : Option Str),
    (∀ q ∈ pre, partPDFData q = none) →
    p.kind = str (r"data") →
    p.data = .obj (some (str (r"application/pdf"))) (some s) pb →
    extractPDFData (pre ++ p :: rest) = some s := by
  intro pre p rest s pb hpre hk hd
  induction pre with
  | nil =>
    have hp : partPDFData p = some s := by
      rw [partPDFData, if_pos hk, hd]
      simp
    simp [extractPDFData, hp]
  | cons q pre ih =>
    have hq : partPDFData q = none := hpre q (by simp)
    simp only [List.cons_append, extractPDFData, hq]
    exact ih (fun q' hq' => hpre q' (by simp [hq']))

/-- Witness for C8 with a non-data part ahead of the PDF mapping part. -/
theorem claim_C8_witness :
    extractPDFData [⟨str (r"text"), str (r"hello"), .null⟩, c8part2] =
      some (str (r"AAAA")) :=
  claim_C8 [⟨str (r"text"), str (r"hello"), .null⟩] c8part2 []
    (str (r"AAAA")) none (by decide) rfl rfl

/-- C6: the assembled `TaskResult` keeps the incoming task id when
non-empty (fresh otherwise), has status state `completed`, a history of
exactly the user message followed by the new agent message, and exactly one
artifact named `flashcardSet` carrying the `FlashcardSet` as its data
payload. -/
theorem claim_C6 : ∀ (c : Collab) (fs : FlashcardSet) (userMsg : Message),
    (buildTaskResult c fs userMsg).id =
      (if userMsg.taskId = [] then str (r"task-") ++ c.freshTask
        else userMsg.taskId) ∧
    (buildTaskResult c fs userMsg).status.state = str (r"completed") ∧
    (buildTaskResult c fs userMsg).status.message.role = str (r"agent") ∧
    (buildTaskResult c fs userMsg).history =
      [userMsg, (buildTaskResult c fs userMsg).status.message] ∧
    (buildTaskResult c fs userMsg).artifacts =
      [⟨str (r"artifact-") ++ c.freshArtifact, str (r"flashcardSet"),
        [⟨str (r"data"), [], DataPayload.flashSet fs⟩]⟩] := by
  intro c fs userMsg
  exact ⟨rfl, rfl, rfl, rfl, rfl⟩

theorem extractUserInput_append {pre : List MessagePart}
    (h : ∀ q ∈ pre, ¬ q.kind = str (r"text")) (rest : List MessagePart) :
    extractUserInput (pre ++ rest) = extractUserInput rest := by
  induction pre with
  | nil => rfl
  | cons q pre ih =>
    have hq : ¬ q.kind = str (r"text") := h q (by simp)
    simp only [List.cons_append, extractUserInput, if_neg hq]
    exact ih (fun q' hq' => h q' (by simp [hq'])) 

theorem handleMessageSend_noText (c : Collab) (req : JSONRPCRequest) (m : Message)
    (hp : req.params = .msg m) (hinput : extractUserInput m.parts = []) :
    handleMessageSend c req =
      sendError req.id InvalidParamsCode (str (r"Invalid params"))
        (str (r"No text content found in message")) := by
  rw [handleMessageSend, hp]
  simp [extractMessage, hinput]

theorem serveHTTP_messageSend (c : Collab) (req : JSONRPCRequest)
    (h2 : req.jsonrpc = str (r"2.0")) (hm : req.method = str (r"message/send")) :
    serveHTTP c ⟨str (r"POST"), some req⟩ = handleMessageSend c req := by
  rw [serveHTTP, if_neg (by simp)]
  simp only []
  rw [if_neg (by simp [h2]), if_pos hm]

/-- C10: a message whose first text-kind part carries the empty string
makes `message/send` fail with InvalidParams (-32602) and data
`No text content found in message`, regardless of any later text part. -/
theorem claim_C10 : ∀ (c : Collab) (reqid : Str) (m : Message)
    (pre : List MessagePart) (d : DataPayload) (rest : List MessagePart),
    m.parts = pre ++ ⟨str (r"text"), [], d⟩ :: rest →
    (∀ q ∈ pre, ¬ q.kind = str (r"text")) →
    serveHTTP c
      ⟨str (r"POST"), some ⟨str (r"2.0"), reqid, str (r"message/send"), .msg m⟩⟩ =
      sendError reqid InvalidParamsCode (str (r"Invalid params"))
        (str (r"No text content found in message")) := by
  intro c reqid m pre d rest hparts hpre
  rw [serveHTTP_messageSend c _ rfl rfl]
  exact handleMessageSend_noText c _ m rfl
    (by rw [hparts, extractUserInput_append hpre]; simp [extractUserInput])

/-- A trivial instantiation of the collaborators, for concrete witnesses. -/
def collab0 : Collab :=
  ⟨fun _ => .failure, fun _ => .error ⟨InternalErrorCode, []⟩,
    fun _ => .error ⟨InternalErrorCode, []⟩, [], [], [], [], []⟩

/-- Witness for C10: the first text part is empty while a later text part
has content, and the request still fails. -/
theorem claim_C10_witness :
    serveHTTP collab0
      ⟨str (r"POST"), some ⟨str (r"2.0"), str (r"1"), str (r"message/send"),
        .msg ⟨str (r"message"), str (r"user"),
          [⟨str (r"data"), [], .null⟩, ⟨str (r"text"), [], .null⟩,
            ⟨str (r"text"), str (r"later text"), .null⟩],
          str (r"m1"), []⟩⟩⟩ =
      sendError (str (r"1")) InvalidParamsCode (str (r"Invalid params"))
        (str (r"No text content found in message")) :=
  claim_C10 collab0 (str (r"1")) _ [⟨str (r"data"), [], .null⟩] .null
    [⟨str (r"text"), str (r"later text"), .null⟩] rfl (by decide)

theorem handleMessageSend_envelope (c : Collab) (req : JSONRPCRequest) :
    (handleMessageSend c req).status = 200 ∧
      (handleMessageSend c req).body.id = req.id := by
  rw [handleMessageSend]
  cases hm : extractMessage req.params with
  | error e => exact ⟨rfl, rfl⟩
  | ok msg =>
    simp only []
    by_cases hi : extractUserInput msg.parts = []
    · rw [if_pos hi]
      exact ⟨rfl, rfl⟩
    · rw [if_neg hi]
      cases hp : processRequest c (extractUserInput msg.parts) msg with
      | error e => exact ⟨rfl, rfl⟩
      | ok result => exact ⟨rfl, rfl⟩

/-- Counterexample to C7 as stated: on a non-POST request the response id
is not the empty string (the code passes the literal `unknown`). -/
theorem claim_C7_counterexample :
    ¬ (serveHTTP collab0 ⟨str (r"GET"), none⟩).body.id = [] := by
  decide

/-- C7 (amended): every response carries HTTP status 200; a non-POST verb
yields an InvalidRequest (-32600) error with message
`Only POST method is supported` under the literal id `unknown`; a body
parse failure echoes the empty string id; once a request decodes, its id is
echoed on every outcome. -/
theorem claim_C7 : ∀ (c : Collab) (r : HTTPRequest),
    (serveHTTP c r).status = 200 ∧
    (¬ r.method = str (r"POST") →
      (serveHTTP c r).body.id = str (r"unknown") ∧
      (serveHTTP c r).body.error =
        some ⟨InvalidRequestCode, str (r"Only POST method is supported"), []⟩) ∧
    (r.method = str (r"POST") → r.body = none → (serveHTTP c r).body.id = []) ∧
    (∀ req, r.method = str (r"POST") → r.body = some req →
      (serveHTTP c r).body.id = req.id) := by
  intro c r
  by_cases hm : r.method = str (r"POST")
  · cases hb : r.body with
    | none =>
      have hs : serveHTTP c r = sendError [] ParseErrorCode (str (r"Parse error")) [] := by
        rw [serveHTTP, if_neg (by simp [hm]), hb]
      refine ⟨by rw [hs]; rfl, fun h => absurd hm h, fun _ _ => by rw [hs]; rfl,
        fun req _ hr => ?_⟩
      cases hr
    | some req =>
      have hid : (serveHTTP c r).status = 200 ∧ (serveHTTP c r).body.id = req.id := by
        rw [serveHTTP, if_neg (by simp [hm]), hb]
        by_cases h2 : req.jsonrpc = str (r"2.0")
        · by_cases hme : req.method = str (r"message/send")
          · simp only []
            rw [if_neg (by simp [h2]), if_pos hme]
            exact handleMessageSend_envelope c req
          · simp only []
            rw [if_neg (by simp [h2]), if_neg hme]
            exact ⟨rfl, rfl⟩
        · simp only []
          rw [if_pos (by simp [h2])]
          exact ⟨rfl, rfl⟩
      refine ⟨hid.1, fun h => absurd hm h, fun _ hn => ?_, fun req' _ hr => ?_⟩
      · cases hn
      · cases hr
        exact hid.2
  · have hs : serveHTTP c r =
        sendError (str (r"unknown")) InvalidRequestCode
          (str (r"Only POST method is supported")) [] := by
      rw [serveHTTP, if_pos hm]
    exact ⟨by rw [hs]; rfl, fun _ => ⟨by rw [hs]; rfl, by rw [hs]; rfl⟩,
      fun hp => absurd hp hm, fun req hp => absurd hp hm⟩

/-- Witness for C7 at a concrete GET request. -/
theorem claim_C7_witness :
    (serveHTTP collab0 ⟨str (r"GET"), none⟩).body.id = str (r"unknown") ∧
      (serveHTTP collab0 ⟨str (r"GET"), none⟩).body.error =
        some ⟨InvalidRequestCode, str (r"Only POST method is supported"), []⟩ :=
  (claim_C7 collab0 ⟨str (r"GET"), none⟩).2.1 (by decide)

theorem noNL_cons {c : Char} (hc : ¬('\n' = c)) {s : Str} (hs : '\n' ∉ s) :
    '\n' ∉ c :: s := by
  intro hmem
  rcases List.mem_cons.mp hmem with h | h
  · exact hc h
  · exact hs h

theorem qTag_cons : qTag = 'Q' :: [':'] := rfl

theorem aTag_cons : aTag = 'A' :: [':'] := rfl

theorem tTag_cons : tTag = 'T' :: [':'] := rfl

theorem trimSpace_markerline {m : Char} (hm : isSpace m = false) {v : Str}
    (hv : trimRight v = v) (hne : v ≠ []) :
    trimSpace (m :: ':' :: ' ' :: v) = m :: ':' :: ' ' :: v := by
  have h1 : trimRight (' ' :: v) = ' ' :: v := by
    rw [trimRight_cons_of_ne (by rw [hv]; exact hne), hv]
  have h2 : trimRight (':' :: ' ' :: v) = ':' :: ' ' :: v := by
    rw [trimRight_cons_of_ne (by rw [h1]; exact List.cons_ne_nil _ _), h1]
  rw [trimSpace_cons_not_space hm, h2]

theorem guardedCard_nil : guardedCard [] = none := rfl

theorem guardedCard_nonblock {c : Char} (hc : isSpace c = false)
    (hcq : ¬('Q' = c)) {t : Str} (h : '\n' ∉ c :: t) :
    guardedCard (c :: t) = none := by
  have hq0 : updField qTag [c :: t] [] = [] := by
    rw [updField_cons, updField_nil, trimSpace_cons_not_space hc, qTag_cons,
      if_neg (by rw [startsWith_cons_false hcq]; exact Bool.false_ne_true)]
  rw [guardedCard]
  by_cases hg : (containsSub qTag (c :: t) && containsSub aTag (c :: t)) = true
  · rw [if_pos hg]
    simp only [blockCard]
    rw [splitLines_noNL h, hq0]
    rw [if_neg (fun hcon => hcon.1 rfl)]
  · rw [if_neg hg]

theorem guardedCard_blockCons {lt q a : Str}
    (hlt : '\n' ∉ lt) (hqn : '\n' ∉ q) (han : '\n' ∉ a)
    (hqt : trimSpace q = q) (hat : trimSpace a = a) (hq : q ≠ []) (ha : a ≠ []) :
    guardedCard (('*' :: lt) ++
        '\n' :: (('Q' :: ':' :: ' ' :: q) ++ '\n' :: ('A' :: ':' :: ' ' :: a))) =
      some ⟨q, a, conceptV⟩ := by
  have hlab : '\n' ∉ ('*' :: lt) := noNL_cons (by decide) hlt
  have hql : '\n' ∉ ('Q' :: ':' :: ' ' :: q) :=
    noNL_cons (by decide) (noNL_cons (by decide) (noNL_cons (by decide) hqn))
  have hal : '\n' ∉ ('A' :: ':' :: ' ' :: a) :=
    noNL_cons (by decide) (noNL_cons (by decide) (noNL_cons (by decide) han))
  have htrq : trimRight q = q := trimRight_eq_self_of_trimSpace hqt
  have htra : trimRight a = a := trimRight_eq_self_of_trimSpace hat
  have h1 : trimSpace ('Q' :: ':' :: ' ' :: q) = 'Q' :: ':' :: ' ' :: q :=
    trimSpace_markerline (by decide) htrq hq
  have h2 : trimSpace ('A' :: ':' :: ' ' :: a) = 'A' :: ':' :: ' ' :: a :=
    trimSpace_markerline (by decide) htra ha
  have hlabtrim : trimSpace ('*' :: lt) = '*' :: trimRight lt :=
    trimSpace_cons_not_space (by decide) lt
  have hcq : containsSub qTag (('*' :: lt) ++
      '\n' :: (('Q' :: ':' :: ' ' :: q) ++ '\n' :: ('A' :: ':' :: ' ' :: a))) = true := by
    have hrearr : ('*' :: lt) ++
        '\n' :: (('Q' :: ':' :: ' ' :: q) ++ '\n' :: ('A' :: ':' :: ' ' :: a)) =
        (('*' :: lt) ++ ['\n']) ++
          (('Q' :: ':' :: ' ' :: q) ++ '\n' :: ('A' :: ':' :: ' ' :: a)) := by simp
    rw [hrearr]
    exact containsSub_append_right _
      (containsSub_of_startsWith (by simp [qTag_cons, startsWith, List.cons_append]))
  have hca : containsSub aTag (('*' :: lt) ++
      '\n' :: (('Q' :: ':' :: ' ' :: q) ++ '\n' :: ('A' :: ':' :: ' ' :: a))) = true := by
    have hrearr : ('*' :: lt) ++
        '\n' :: (('Q' :: ':' :: ' ' :: q) ++ '\n' :: ('A' :: ':' :: ' ' :: a)) =
        ((('*' :: lt) ++ '\n' :: ('Q' :: ':' :: ' ' :: q)) ++ ['\n']) ++
          ('A' :: ':' :: ' ' :: a) := by simp
    rw [hrearr]
    exact containsSub_append_right _
      (containsSub_of_startsWith (by simp [aTag_cons, startsWith]))
  have hswQlab : startsWith qTag (trimSpace ('*' :: lt)) = false := by
    rw [hlabtrim, qTag_cons]
    exact startsWith_cons_false (by decide) _ _
  have hswAlab : startsWith aTag (trimSpace ('*' :: lt)) = false := by
    rw [hlabtrim, aTag_cons]
    exact startsWith_cons_false (by decide) _ _
  have hswTlab : startsWith tTag (trimSpace ('*' :: lt)) = false := by
    rw [hlabtrim, tTag_cons]
    exact startsWith_cons_false (by decide) _ _
  have hswQq : startsWith qTag (trimSpace ('Q' :: ':' :: ' ' :: q)) = true := by
    rw [h1]
    simp [qTag_cons, startsWith]
  have hswAq : startsWith aTag (trimSpace ('Q' :: ':' :: ' ' :: q)) = false := by
    rw [h1, aTag_cons]
    exact startsWith_cons_false (by decide) _ _
  have hswTq : startsWith tTag (trimSpace ('Q' :: ':' :: ' ' :: q)) = false := by
    rw [h1, tTag_cons]
    exact startsWith_cons_false (by decide) _ _
  have hswQa : startsWith qTag (trimSpace ('A' :: ':' :: ' ' :: a)) = false := by
    rw [h2, qTag_cons]
    exact startsWith_cons_false (by decide) _ _
  have hswAa : startsWith aTag (trimSpace ('A' :: ':' :: ' ' :: a)) = true := by
    rw [h2]
    simp [aTag_cons, startsWith]
  have hswTa : startsWith tTag (trimSpace ('A' :: ':' :: ' ' :: a)) = false := by
    rw [h2, tTag_cons]
    exact startsWith_cons_false (by decide) _ _
  have valQ : trimSpace (dropPre qTag (trimSpace ('Q' :: ':' :: ' ' :: q))) = q := by
    rw [h1, dropPre, if_pos (by simp [qTag_cons, startsWith])]
    show trimSpace (' ' :: q) = q
    rw [trimSpace_space_cons, hqt]
  have valA : trimSpace (dropPre aTag (trimSpace ('A' :: ':' :: ' ' :: a))) = a := by
    rw [h2, dropPre, if_pos (by simp [aTag_cons, startsWith])]
    show trimSpace (' ' :: a) = a
    rw [trimSpace_space_cons, hat]
  have huq : updField qTag
      [('*' :: lt), ('Q' :: ':' :: ' ' :: q), ('A' :: ':' :: ' ' :: a)] [] = q := by
    rw [updField_cons, updField_cons, updField_cons, updField_nil]
    rw [if_neg (by rw [hswQa]; exact Bool.false_ne_true),
      if_pos hswQq]
    exact valQ
  have hua : updField aTag
      [('*' :: lt), ('Q' :: ':' :: ' ' :: q), ('A' :: ':' :: ' ' :: a)] [] = a := by
    rw [updField_cons, updField_cons, updField_cons, updField_nil]
    rw [if_pos hswAa]
    exact valA
  have hut : updField tTag
      [('*' :: lt), ('Q' :: ':' :: ' ' :: q), ('A' :: ':' :: ' ' :: a)] [] = [] := by
    rw [updField_cons, updField_cons, updField_cons, updField_nil]
    rw [if_neg (by rw [hswTa]; exact Bool.false_ne_true),
      if_neg (by rw [hswTq]; exact Bool.false_ne_true),
      if_neg (by rw [hswTlab]; exact Bool.false_ne_true)]
  rw [guardedCard, if_pos (by rw [hcq, hca]; rfl)]
  simp only [blockCard]
  rw [splitLines_block hlab hql hal, huq, hua, hut]
  rw [if_pos ⟨hq, ha⟩, if_pos rfl]

theorem strCardHead (x : Str) : str (r"**Card ") ++ x = '*' :: (str (r"*Card ") ++ x) :=
  rfl

theorem strQHead (x : Str) : str (r"Q: ") ++ x = 'Q' :: ':' :: ' ' :: x := rfl

theorem strAHead (x : Str) : str (r"A: ") ++ x = 'A' :: ':' :: ' ' :: x := rfl

theorem strHashHead (x : Str) : str (r"# ") ++ x = '#' :: ' ' :: x := rfl

theorem strGenHead (x : Str) : str (r"Generated ") ++ x = 'G' :: (str (r"enerated ") ++ x) :=
  rfl

theorem cardChunk_shape (n : Nat) (c : Flashcard) (r : Str) :
    cardChunk n c ++ r =
      ('*' :: (str (r"*Card ") ++ natStr n ++ str (r"**") ++
        (if c.topic ≠ [] then str (r" (") ++ c.topic ++ str (r")") else []))) ++
      '\n' :: (('Q' :: ':' :: ' ' :: c.question) ++
        '\n' :: (('A' :: ':' :: ' ' :: c.answer) ++ '\n' :: '\n' :: r)) := by
  rw [cardChunk]
  simp [strCardHead, strQHead, strAHead, List.append_assoc, List.cons_append]

theorem filterMap_formatCards (cards : List Flashcard)
    (h : ∀ c ∈ cards, c.question ≠ [] ∧ c.answer ≠ [] ∧ '\n' ∉ c.question ∧
      '\n' ∉ c.answer ∧ '\n' ∉ c.topic ∧ trimSpace c.question = c.question ∧
      trimSpace c.answer = c.answer) :
    ∀ k, (splitOnNN (formatCards k cards)).filterMap guardedCard =
      cards.map (fun c => ⟨c.question, c.answer, conceptV⟩) := by
  induction cards with
  | nil =>
    intro k
    rw [formatCards]
    rfl
  | cons c cs ih =>
    intro k
    obtain ⟨hq, ha, hqn, han, htn, hqt, hat⟩ := h c (by simp)
    have hrest := fun c' hc' => h c' (List.mem_cons_of_mem _ hc')
    rw [formatCards, cardChunk_shape]
    have hl1 : '\n' ∉ (str (r"*Card ") ++ natStr k ++ str (r"**") ++
        (if c.topic ≠ [] then str (r" (") ++ c.topic ++ str (r")") else [])) := by
      intro hmem
      rcases List.mem_append.mp hmem with hmem2 | h4
      · rcases List.mem_append.mp hmem2 with hmem3 | h3
        · rcases List.mem_append.mp hmem3 with h1 | h2
          · exact (by decide : ('\n' : Char) ∉ str (r"*Card ")) h1
          · exact nl_not_mem_natStr k h2
        · exact (by decide : ('\n' : Char) ∉ str (r"**")) h3
      · by_cases htop : c.topic ≠ []
        · rw [if_pos htop] at h4
          rcases List.mem_append.mp h4 with h45 | h7
          · rcases List.mem_append.mp h45 with h5 | h6
            · exact (by decide : ('\n' : Char) ∉ str (r" (")) h5
            · exact htn h6
          · exact (by decide : ('\n' : Char) ∉ str (r")")) h7
        · rw [if_neg htop] at h4
          simp at h4
    have hql : '\n' ∉ ('Q' :: ':' :: ' ' :: c.question) :=
      noNL_cons (by decide) (noNL_cons (by decide) (noNL_cons (by decide) hqn))
    have hal : '\n' ∉ ('A' :: ':' :: ' ' :: c.answer) :=
      noNL_cons (by decide) (noNL_cons (by decide) (noNL_cons (by decide) han))
    rw [splitOnNN_block (noNL_cons (by decide) hl1) hql hal
      (List.cons_ne_nil _ _) (List.cons_ne_nil _ _)]
    rw [List.filterMap_cons_some
      (guardedCard_blockCons hl1 hqn han hqt hat hq ha)]
    rw [ih hrest (k + 1), List.map_cons]

/-- C5 (amended): for every `FlashcardSet` whose title and source contain no
newline and whose cards' questions, answers and topics contain no newline,
with questions and answers non-empty and equal to their trimmed forms,
re-parsing the `FormatAsText` rendering reproduces the ordered sequence of
question/answer pairs, every re-parsed topic being `Concept`. -/
theorem claim_C5 : ∀ (set : FlashcardSet),
    '\n' ∉ set.title → '\n' ∉ set.source →
    (∀ c ∈ set.flashcards, c.question ≠ [] ∧ c.answer ≠ [] ∧ '\n' ∉ c.question ∧
      '\n' ∉ c.answer ∧ '\n' ∉ c.topic ∧ trimSpace c.question = c.question ∧
      trimSpace c.answer = c.answer) →
    (parseFlashcards (FormatAsText set)).map (fun c => (c.question, c.answer)) =
      set.flashcards.map (fun c => (c.question, c.answer)) ∧
    (∀ c ∈ parseFlashcards (FormatAsText set), c.topic = conceptV) := by
  intro set htitle hsrc hcards
  have hl1 : '\n' ∉ str (r"# ") ++ set.title := by
    intro hmem
    rcases List.mem_append.mp hmem with h | h
    · exact (by decide : ('\n' : Char) ∉ str (r"# ")) h
    · exact htitle h
  have hl2 : '\n' ∉ str (r"Generated ") ++ natStr set.totalCards ++
      str (r" flashcards from: ") ++ set.source := by
    intro hmem
    rcases List.mem_append.mp hmem with h12 | h
    · rcases List.mem_append.mp h12 with h123 | h
      · rcases List.mem_append.mp h123 with h | h
        · exact (by decide : ('\n' : Char) ∉ str (r"Generated ")) h
        · exact nl_not_mem_natStr _ h
      · exact (by decide : ('\n' : Char) ∉ str (r" flashcards from: ")) h
    · exact hsrc h
  have hg1 : guardedCard (str (r"# ") ++ set.title) = none := by
    rw [strHashHead]
    exact guardedCard_nonblock (by decide) (by decide)
      (by rw [← strHashHead]; exact hl1)
  have hg2 : guardedCard (str (r"Generated ") ++ natStr set.totalCards ++
      str (r" flashcards from: ") ++ set.source) = none := by
    have hsh : str (r"Generated ") ++ natStr set.totalCards ++
        str (r" flashcards from: ") ++ set.source =
        'G' :: (str (r"enerated ") ++ natStr set.totalCards ++
          str (r" flashcards from: ") ++ set.source) := by
      simp [strGenHead, List.cons_append, List.append_assoc]
    rw [hsh]
    exact guardedCard_nonblock (by decide) (by decide)
      (by rw [← hsh]; exact hl2)
  have hmain : parseFlashcards (FormatAsText set) =
      set.flashcards.map (fun c => ⟨c.question, c.answer, conceptV⟩) := by
    rw [parse_eq_filterMap, FormatAsText]
    rw [splitOnNN_line hl1, splitOnNN_line hl2]
    rw [List.filterMap_cons_none hg1, List.filterMap_cons_none hg2]
    exact filterMap_formatCards set.flashcards hcards 1
  refine ⟨?_, ?_⟩
  · rw [hmain, List.map_map]
    rfl
  · rw [hmain]
    intro c hc
    rcases List.mem_map.mp hc with ⟨c', hc', rfl⟩
    rfl

/-- A well-formed two-card set for the C5 witness. -/
def set5w : FlashcardSet :=
  ⟨str (r"My Title"),
    [⟨str (r"q1"), str (r"a1"), str (r"Topic One")⟩,
      ⟨str (r"q2"), str (r"a2"), []⟩],
    str (r"user_input"), [], 2⟩

/-- Witness for C5 on a concrete two-card set. -/
theorem claim_C5_witness :
    (parseFlashcards (FormatAsText set5w)).map (fun c => (c.question, c.answer)) =
      set5w.flashcards.map (fun c => (c.question, c.answer)) ∧
    (∀ c ∈ parseFlashcards (FormatAsText set5w), c.topic = conceptV) :=
  claim_C5 set5w (by decide) (by decide) (by decide)

/-- A set meeting the original claim's hypotheses (no newlines, fields
non-empty after trimming) whose question carries leading whitespace. -/
def set5bad : FlashcardSet :=
  ⟨str (r"T"), [⟨str (r" x"), str (r"y"), str (r"Top")⟩], str (r"s"), [], 1⟩

/-- Counterexample to C5 as stated: the rendered text trims the card
fields on re-parsing, so a question with leading whitespace is not
reproduced even though it is newline-free and non-empty after trimming. -/
theorem claim_C5_counterexample :
    (∀ c ∈ set5bad.flashcards, '\n' ∉ c.question ∧ '\n' ∉ c.answer ∧
      '\n' ∉ c.topic ∧ trimSpace c.question ≠ [] ∧ trimSpace c.answer ≠ []) ∧
    ¬ ((parseFlashcards (FormatAsText set5bad)).map
        (fun c => (c.question, c.answer)) =
      set5bad.flashcards.map (fun c => (c.question, c.answer))) := by
  decide
